import Mathlib

/-!
Verification of the NeuroPawn-Workshop repository against its specification.

Part 1: a shallow embedding of the repository source itself.  The repository
consists of a single Jupyter notebook, `src/workshop_template.ipynb`, with one
markdown cell (the problem statement) and one code cell (three Python import
statements, no outputs, never executed).  We embed the notebook structure, the
verbatim source lines, and a small Python-statement AST into which the code
cell is translated, and prove the claims about the source.

Part 2 (later in the file): the specification describes a minimal streaming
EEG-to-classification core that the repository does not implement; components
for those claims are modelled from the spec.
-/

namespace NeuroPawnWorkshop

/-- A notebook cell is either markdown or code, mirroring `cell_type` in the
ipynb JSON. -/
inductive CellType where
  | markdown
  | code
deriving DecidableEq, Repr

/-- One notebook cell: its type, its verbatim source lines (without trailing
newlines), and its `outputs` array (`none` for markdown cells, which have no
outputs field; `some []` for the code cell, whose outputs list is empty). -/
structure Cell where
  cellType : CellType
  source : List String
  outputs : Option (List String)
deriving DecidableEq, Repr

/-- Verbatim source lines of the markdown cell of
`src/workshop_template.ipynb` (cell 0). -/
def markdownLines : List String :=
  [ "### Problem Statement",
    "---",
    "SSVEP Classification Using EEG: Developing and Testing a Classifier for Frequency-Based Stimuli Detection",
    "",
    "#### Background",
    "---",
    "Steady-State Visual Evoked Potentials (SSVEP) are responses generated in the brain when a subject views a visual stimulus flickering at a constant frequency. ",
    "",
    "These responses can be detected via Electroencephalography (EEG) and are commonly used in Brain-Computer Interface (BCI) applications, such as controlling external devices or interfaces. ",
    "",
    "The NeuroPawn headset and the NeuroPawn Knight Board are wearable EEG devices capable of capturing brain signals, while the NeuroPawn SSVEP GUI provides a customizable visual stimulus presentation platform for generating SSVEPs at multiple frequencies.",
    "",
    "#### Objective",
    "---",
    "The objective of this project is to design, develop, and test a robust EEG classifier for SSVEP detection. ",
    "",
    "The classifier should accurately identify the specific frequency of the visual stimulus viewed by the subject based on EEG data. ",
    "",
    "The classifier will be trained on data acquired from the NeuroPawn headset during an SSVEP experiment, with the ultimate goal of achieving high classification accuracy across multiple SSVEP frequencies.",
    "",
    "#### Scope",
    "---",
    "- **Establishing Connection**: Setting up a Python-based connection to the NeuroPawn Knight Board to stream EEG data.",
    "",
    "- **Data Acquisition**: Acquiring real-time EEG data during an SSVEP experiment using the NeuroPawn headset.",
    "",
    "- **Signal Processing**: Processing the EEG data to filter noise, remove artifacts, and extract meaningful features for classification.",
    "",
    "- **Classifier Development**: Designing a classifier capable of distinguishing between EEG signals elicited by different SSVEP frequencies.",
    "",
    "- **Testing and Evaluation**: Evaluating classifier performance to ensure accuracy and reliability across various frequencies.",
    "",
    "",
    "#### Requirements",
    "---",
    "- Using Python, establish a connection to the NeuroPawn Knight Board.",
    "",
    "- Acquire and store EEG data in real time.",
    "",
    "- Implement preprocessing steps for the EEG data, such asfrequency filtering and artifact removal.",
    "",
    "- Develop a classifier (e.g., SVM, CNN, or other ML models) trained on features specific to SSVEP frequencies (with either scikit-learn or brainflow.ml_model)",
    "",
    "- Classify EEG signals in real-time",
    "",
    "- (Optional) Evaluate classifier performance using appropriate metrics (e.g., accuracy, precision, recall) and optimize for high classification accuracy." ]

/-- Verbatim source lines of the code cell of `src/workshop_template.ipynb`
(cell 1). -/
def codeLines : List String :=
  [ "import numpy as np",
    "from brainflow.board_shim import BoardShim, BrainFlowInputParams, BoardIds",
    "from brainflow.data_filter import DataFilter, FilterTypes, DetrendOperations, WindowOperations" ]

/-- The cells of `src/workshop_template.ipynb`, in order. -/
def workshopTemplate : List Cell :=
  [ { cellType := CellType.markdown, source := markdownLines, outputs := none },
    { cellType := CellType.code, source := codeLines, outputs := some [] } ]

/-- The repository source tree: file name paired with its cells.  The
repository contains exactly this one source file. -/
def repositorySources : List (String × List Cell) :=
  [ (("src/workshop_template.ipynb"), workshopTemplate) ]

/-- A small Python expression AST, sufficient to express what the notebook's
statements could reference or call. -/
inductive PyExpr where
  | name (n : String)
  | attr (e : PyExpr) (field : String)
  | call (f : PyExpr) (args : List PyExpr)
  | lit (s : String)

/-- A small Python statement AST covering the statement forms relevant to the
claims: imports, expression statements, assignments, function and class
definitions, raise and try/except.  The notebook's code cell uses only the
two import forms. -/
inductive PyStmt where
  | importModuleAs (module : String) (asName : String)
  | fromImport (module : String) (names : List String)
  | exprStmt (e : PyExpr)
  | assign (target : String) (value : PyExpr)
  | funcDef (name : String)
  | classDef (name : String)
  | raiseStmt (exc : String)
  | tryExcept (handled : String)

/-- The code cell of the notebook, translated statement by statement from
`codeLines`. -/
def codeCellStmts : List PyStmt :=
  [ PyStmt.importModuleAs ("numpy") ("np"),
    PyStmt.fromImport ("brainflow.board_shim")
      (["BoardShim", "BrainFlowInputParams", "BoardIds"]),
    PyStmt.fromImport ("brainflow.data_filter")
      (["DataFilter", "FilterTypes", "DetrendOperations", "WindowOperations"]) ]

/-- The parsed code cells of the notebook, one entry per code cell, in
notebook order. -/
def workshopCodeCells : List (List PyStmt) := [codeCellStmts]

/-- Names bound in the enclosing scope by one statement.  An
`import m as a` binds `a`; a `from m import n1, n2` binds the `ni`;
assignments and definitions bind their target name. -/
def boundNames : PyStmt → List String
  | PyStmt.importModuleAs _ a => [a]
  | PyStmt.fromImport _ ns => ns
  | PyStmt.exprStmt _ => []
  | PyStmt.assign t _ => [t]
  | PyStmt.funcDef n => [n]
  | PyStmt.classDef n => [n]
  | PyStmt.raiseStmt _ => []
  | PyStmt.tryExcept _ => []

mutual

/-- Names referenced by an expression. -/
def exprNames : PyExpr → List String
  | PyExpr.name n => [n]
  | PyExpr.attr e _ => exprNames e
  | PyExpr.call f args => exprNames f ++ exprNamesList args
  | PyExpr.lit _ => []

/-- Names referenced by a list of expressions. -/
def exprNamesList : List PyExpr → List String
  | [] => []
  | e :: es => exprNames e ++ exprNamesList es

end

/-- Whether an expression contains a call. -/
def exprHasCall : PyExpr → Bool
  | PyExpr.name _ => false
  | PyExpr.attr e _ => exprHasCall e
  | PyExpr.call _ _ => true
  | PyExpr.lit _ => false

/-- Names referenced (read) by a statement.  Import statements reference
module paths, not bound names, so they reference nothing in scope. -/
def referencedNames : PyStmt → List String
  | PyStmt.exprStmt e => exprNames e
  | PyStmt.assign _ e => exprNames e
  | _ => []

/-- Whether a statement performs any call. -/
def stmtHasCall : PyStmt → Bool
  | PyStmt.exprStmt e => exprHasCall e
  | PyStmt.assign _ e => exprHasCall e
  | _ => false

/-- Whether a statement is an import statement. -/
def isImport : PyStmt → Bool
  | PyStmt.importModuleAs _ _ => true
  | PyStmt.fromImport _ _ => true
  | _ => false

/-- Whether a statement defines a function or a class. -/
def isDefinition : PyStmt → Bool
  | PyStmt.funcDef _ => true
  | PyStmt.classDef _ => true
  | _ => false

/-- Whether a statement raises an exception. -/
def isRaise : PyStmt → Bool
  | PyStmt.raiseStmt _ => true
  | _ => false

/-- Whether a statement catches exceptions. -/
def isTryExcept : PyStmt → Bool
  | PyStmt.tryExcept _ => true
  | _ => false

/-- Number of import statements across the given code cells. -/
def importCount (cells : List (List PyStmt)) : Nat :=
  (cells.flatten.filter isImport).length

/-- All names bound by a list of statements, in statement order. -/
def cellBoundNames (stmts : List PyStmt) : List String :=
  (stmts.map boundNames).flatten

/-- `true` when no name bound by a statement is referenced by any later
statement in the list. -/
def noLaterUse : List PyStmt → Bool
  | [] => true
  | st :: rest =>
      (boundNames st).all (fun n => rest.all (fun st2 => !(referencedNames st2).contains n))
        && noLaterUse rest

/-- Boolean prefix test on character lists. -/
def isPrefixOfB : List Char → List Char → Bool
  | [], _ => true
  | _ :: _, [] => false
  | a :: as, b :: bs => a == b && isPrefixOfB as bs

/-- Boolean substring test on character lists. -/
def containsSubList (n : List Char) : List Char → Bool
  | [] => n.isEmpty
  | c :: rest => isPrefixOfB n (c :: rest) || containsSubList n rest

/-- Boolean substring test on strings. -/
def containsSub (needle s : String) : Bool :=
  containsSubList needle.toList s.toList

/-- Every source line of every cell of the notebook. -/
def allSourceLines : List String :=
  (workshopTemplate.map Cell.source).flatten

/-- The error-type names that the specification introduces. -/
def specErrorNames : List String :=
  [ "InsufficientDataError", "CorruptWindowError",
    "InsufficientTrainingDataError", "ModelConfigMismatchError" ]

/-- Claim C1 exactly as stated by the spec sentence: the repository is a
single notebook whose only code is exactly TWO import statements, with no
function, class, or pipeline definition anywhere. -/
def claimC1 : Prop :=
  repositorySources.length = 1
    ∧ (∀ st ∈ workshopCodeCells.flatten, isImport st = true)
    ∧ importCount workshopCodeCells = 2
    ∧ (∀ st ∈ workshopCodeCells.flatten, isDefinition st = false)

end NeuroPawnWorkshop

namespace NeuroPawnWorkshop

/-- C1 (counterexample): the claim as stated is false on the source: the code
cell of `src/workshop_template.ipynb` contains three import statements
(`import numpy as np` and two `from ... import ...` statements), not two. -/
theorem C1_counterexample : ¬ claimC1 ∧ importCount workshopCodeCells = 3 := by
  constructor
  · intro h
    have h2 := h.2.2.1
    revert h2
    decide
  · decide

/-- C1 (amended): the repository source is a single notebook whose only code
is exactly THREE import statements, and no function, class, or pipeline
definition occurs anywhere in the source. -/
theorem C1_amended_holds :
    repositorySources.length = 1
      ∧ (∀ st ∈ workshopCodeCells.flatten, isImport st = true)
      ∧ importCount workshopCodeCells = 3
      ∧ (∀ st ∈ workshopCodeCells.flatten, isDefinition st = false) := by
  decide

/-- C9: executing the notebook's sole code cell is effect-free beyond name
binding: every statement is an import (so the cell performs no call), the
names bound are exactly the eight imported names in order, the cell's
recorded outputs are empty, and no imported name is referenced by any
statement after its import. -/
theorem C9_code_cell_effect_free :
    (∀ st ∈ codeCellStmts, isImport st = true ∧ stmtHasCall st = false)
      ∧ cellBoundNames codeCellStmts =
          [ "np", "BoardShim", "BrainFlowInputParams", "BoardIds",
            "DataFilter", "FilterTypes", "DetrendOperations", "WindowOperations" ]
      ∧ (workshopTemplate.get? 1).map Cell.outputs = some (some [])
      ∧ noLaterUse codeCellStmts = true := by
  decide

set_option maxRecDepth 100000 in
/-- C10: none of the spec's error-type names (`InsufficientDataError`,
`CorruptWindowError`, `InsufficientTrainingDataError`,
`ModelConfigMismatchError`) occurs anywhere in the notebook's source text,
and no statement of the source defines a class, raises, or catches anything,
so no execution of the program can produce or handle any of them. -/
theorem C10_no_spec_errors_in_source :
    (∀ needle ∈ specErrorNames, ∀ line ∈ allSourceLines,
        containsSub needle line = false)
      ∧ (∀ st ∈ workshopCodeCells.flatten,
          isDefinition st = false ∧ isRaise st = false ∧ isTryExcept st = false) := by
  decide

end NeuroPawnWorkshop

namespace NeuroPawnWorkshop

/-!
Part 2: the specification's minimal streaming EEG-to-classification core.
The repository, as given, implements none of it, so every definition below is
modelled from the spec (sections 3 to 6), and the claims about those
components are settled against these models.
-/

/-- Modelled from the spec: a floating-point voltage value.  The repository
contains no implementation; the spec's edge-case policy distinguishes finite
values from non-finite ones (NaN/Inf), so the model makes that distinction
explicit. -/
inductive FloatVal where
  | finite (q : ℚ)
  | posInf
  | negInf
  | nan
deriving DecidableEq

/-- Whether a value is finite (not NaN and not an infinity). -/
def FloatVal.isFinite : FloatVal → Bool
  | FloatVal.finite _ => true
  | _ => false

/-- The rational carried by a finite value (0 for non-finite ones; the
preprocessing path only applies it after rejecting non-finite windows). -/
def FloatVal.toRat : FloatVal → ℚ
  | FloatVal.finite q => q
  | _ => 0

/-- Modelled from the spec: one multi-channel voltage reading at a timestamp
(spec section 3, Sample). -/
structure Sample where
  timestamp : Nat
  values : List FloatVal
deriving DecidableEq

/-- The channel count of a sample. -/
def Sample.channelCount (s : Sample) : Nat := s.values.length

/-- Modelled from the spec: a Window is an ordered sequence of consecutive
Samples (spec section 3). -/
abbrev Window := List Sample

/-- The last `n` elements of a list, in order. -/
def takeLast (n : Nat) (l : List α) : List α := l.drop (l.length - n)

/-- Modelled from the spec: the error taxonomy of spec section 7, plus the
format-version failure implied by the versioned model file format of spec
section 6. -/
inductive PipelineError where
  | insufficientData
  | corruptWindow
  | insufficientTrainingData
  | modelConfigMismatch
  | unsupportedModelFormat
deriving DecidableEq

/-- Modelled from the spec: SampleBuffer, the fixed-capacity buffer holding
the most recent samples (spec section 4.1); `data` lists the retained samples
oldest first, `pushedCount` counts every sample ever pushed. -/
structure SampleBuffer where
  capacity : Nat
  data : List Sample
  pushedCount : Nat
deriving DecidableEq

/-- A fresh, empty buffer of the given capacity. -/
def SampleBuffer.empty (cap : Nat) : SampleBuffer :=
  { capacity := cap, data := [], pushedCount := 0 }

/-- Modelled from the spec: `push(sample)` appends one Sample, evicting the
oldest if at capacity (spec section 4.1). -/
def SampleBuffer.push (b : SampleBuffer) (s : Sample) : SampleBuffer :=
  if b.data.length = b.capacity then
    { b with data := b.data.tail ++ [s], pushedCount := b.pushedCount + 1 }
  else
    { b with data := b.data ++ [s], pushedCount := b.pushedCount + 1 }

/-- Modelled from the spec: `snapshot(length)` returns the most recent
`length` Samples in chronological order, and fails with
`InsufficientDataError` if fewer than `length` samples have ever been pushed
(spec section 4.1). -/
def SampleBuffer.snapshot (b : SampleBuffer) (len : Nat) : Except PipelineError (List Sample) :=
  if b.pushedCount < len then Except.error PipelineError.insufficientData
  else Except.ok (takeLast len b.data)

/-- Push a whole sequence of samples, in order. -/
def SampleBuffer.pushAll (b : SampleBuffer) : List Sample → SampleBuffer
  | [] => b
  | s :: rest => SampleBuffer.pushAll (b.push s) rest

theorem takeLast_nil (n : Nat) : takeLast n ([] : List α) = [] := by
  simp [takeLast]

theorem takeLast_all {n : Nat} {l : List α} (h : l.length ≤ n) : takeLast n l = l := by
  simp [takeLast, Nat.sub_eq_zero_of_le h]

theorem takeLast_length_of_le {n : Nat} {l : List α} (h : n ≤ l.length) :
    (takeLast n l).length = n := by
  simp [takeLast, Nat.sub_sub_self h]

theorem takeLast_zero (l : List α) : takeLast 0 l = [] := by
  simp [takeLast]

theorem takeLast_takeLast {len cap : Nat} {l : List α} (h1 : len ≤ cap)
    (h2 : cap ≤ l.length) : takeLast len (takeLast cap l) = takeLast len l := by
  simp only [takeLast, List.drop_drop, List.length_drop]
  congr 1
  omega

theorem SampleBuffer.push_pushedCount (b : SampleBuffer) (s : Sample) :
    (b.push s).pushedCount = b.pushedCount + 1 := by
  unfold SampleBuffer.push
  split <;> rfl

theorem SampleBuffer.push_capacity (b : SampleBuffer) (s : Sample) :
    (b.push s).capacity = b.capacity := by
  unfold SampleBuffer.push
  split <;> rfl

theorem SampleBuffer.pushAll_pushedCount (xs : List Sample) :
    ∀ b : SampleBuffer, (b.pushAll xs).pushedCount = b.pushedCount + xs.length := by
  induction xs with
  | nil => intro b; simp [SampleBuffer.pushAll]
  | cons x rest ih =>
      intro b
      simp only [SampleBuffer.pushAll, List.length_cons]
      rw [ih, SampleBuffer.push_pushedCount]
      omega

theorem SampleBuffer.push_data_takeLast {cap : Nat} {b : SampleBuffer} {ys : List Sample}
    (s : Sample) (hcap : b.capacity = cap) (h1 : 1 ≤ cap) (hd : b.data = takeLast cap ys) :
    (b.push s).data = takeLast cap (ys ++ [s]) := by
  unfold SampleBuffer.push
  by_cases hfull : b.data.length = b.capacity
  · simp only [hfull, if_pos rfl]
    have hys : cap ≤ ys.length := by
      by_contra hlt
      push_neg at hlt
      have := takeLast_all (Nat.le_of_lt hlt)
      rw [hd, this] at hfull
      omega
    have hlen : (takeLast cap ys).length = cap := takeLast_length_of_le hys
    rw [hd]
    simp only [takeLast, List.tail_drop, List.length_append, List.length_singleton]
    rw [List.drop_append_eq_append_drop]
    have hzero : ys.length + 1 - cap - ys.length = 0 := by omega
    have harith : ys.length + 1 - cap = ys.length - cap + 1 := by omega
    rw [hzero, harith]
    simp
  · simp only [if_neg hfull]
    have hys : ys.length < cap := by
      by_contra hge
      push_neg at hge
      have := takeLast_length_of_le hge
      rw [hd] at hfull
      rw [this] at hfull
      exact hfull hcap.symm
    rw [hd, takeLast_all (Nat.le_of_lt hys),
        takeLast_all (by simp; omega : (ys ++ [s]).length ≤ cap)]

theorem SampleBuffer.pushAll_data {cap : Nat} (h1 : 1 ≤ cap) :
    ∀ (xs ys : List Sample) (b : SampleBuffer), b.capacity = cap →
      b.data = takeLast cap ys → (b.pushAll xs).data = takeLast cap (ys ++ xs) := by
  intro xs
  induction xs with
  | nil => intro ys b _ hd; simpa [SampleBuffer.pushAll] using hd
  | cons x rest ih =>
      intro ys b hcap hd
      simp only [SampleBuffer.pushAll]
      have step := SampleBuffer.push_data_takeLast x hcap h1 hd
      have := ih (ys ++ [x]) (b.push x) (by rw [SampleBuffer.push_capacity, hcap]) step
      rw [this]
      simp

theorem SampleBuffer.pushAll_capacity (xs : List Sample) :
    ∀ b : SampleBuffer, (b.pushAll xs).capacity = b.capacity := by
  induction xs with
  | nil => intro b; rfl
  | cons x rest ih =>
      intro b
      simp only [SampleBuffer.pushAll]
      rw [ih, SampleBuffer.push_capacity]

end NeuroPawnWorkshop

namespace NeuroPawnWorkshop

/-- C2: for every sequence of pushes whose length exceeds the buffer
capacity, a subsequent `snapshot(length)` with `length ≤ capacity` returns
exactly the `length` most recently pushed Samples, in push order. -/
theorem C2_snapshot_returns_most_recent (cap len : Nat) (xs : List Sample)
    (hover : cap < xs.length) (hlen : len ≤ cap) :
    ((SampleBuffer.empty cap).pushAll xs).snapshot len = Except.ok (takeLast len xs) := by
  have hcount : ((SampleBuffer.empty cap).pushAll xs).pushedCount = xs.length := by
    rw [SampleBuffer.pushAll_pushedCount]
    simp [SampleBuffer.empty]
  unfold SampleBuffer.snapshot
  rw [hcount, if_neg (by omega)]
  by_cases hcap : 1 ≤ cap
  · have hdata := SampleBuffer.pushAll_data hcap xs [] (SampleBuffer.empty cap) rfl
      (by simp [SampleBuffer.empty, takeLast_nil])
    simp only [List.nil_append] at hdata
    rw [hdata, takeLast_takeLast hlen (by omega)]
  · have hlen0 : len = 0 := by omega
    rw [hlen0, takeLast_zero, takeLast_zero]

/-- C2 witness: pushing three samples into a capacity-2 buffer, a snapshot of
length 2 returns the last two samples in push order. -/
theorem C2_witness :
    ((SampleBuffer.empty 2).pushAll
        [ Sample.mk 1 [], Sample.mk 2 [], Sample.mk 3 [] ]).snapshot 2 =
        Except.ok (takeLast 2 [ Sample.mk 1 [], Sample.mk 2 [], Sample.mk 3 [] ])
      ∧ takeLast 2 [ Sample.mk 1 [], Sample.mk 2 [], Sample.mk 3 [] ] =
        [ Sample.mk 2 [], Sample.mk 3 [] ] :=
  ⟨C2_snapshot_returns_most_recent 2 2
      [ Sample.mk 1 [], Sample.mk 2 [], Sample.mk 3 [] ] (by decide) (by decide),
    by decide⟩

/-- C3: `snapshot(length)` fails with `InsufficientDataError` exactly when
fewer than `length` samples have ever been pushed, and succeeds otherwise;
in particular, after pushing fewer than `window_seconds × sampling_rate`
samples, requesting a full window fails with `InsufficientDataError`. -/
theorem C3_snapshot_insufficient_data (cap len ws sr : Nat) (xs : List Sample) :
    (((SampleBuffer.empty cap).pushAll xs).snapshot len =
        Except.error PipelineError.insufficientData ↔ xs.length < len)
      ∧ (len ≤ xs.length →
          ∃ ys, ((SampleBuffer.empty cap).pushAll xs).snapshot len = Except.ok ys)
      ∧ (xs.length < ws * sr →
          ((SampleBuffer.empty cap).pushAll xs).snapshot (ws * sr) =
            Except.error PipelineError.insufficientData) := by
  have hcount : ((SampleBuffer.empty cap).pushAll xs).pushedCount = xs.length := by
    rw [SampleBuffer.pushAll_pushedCount]
    simp [SampleBuffer.empty]
  refine ⟨?_, ?_, ?_⟩
  · unfold SampleBuffer.snapshot
    rw [hcount]
    by_cases h : xs.length < len
    · simp [h]
    · simp [h]
  · intro hle
    unfold SampleBuffer.snapshot
    rw [hcount, if_neg (by omega)]
    exact ⟨_, rfl⟩
  · intro hlt
    unfold SampleBuffer.snapshot
    rw [hcount, if_pos hlt]

/-- C3 witness: with two samples pushed, a snapshot of length 2 succeeds and
a full-window snapshot for a 2-second window at 256 Hz (512 samples) fails
with `InsufficientDataError`. -/
theorem C3_witness :
    (∃ ys, ((SampleBuffer.empty 4).pushAll
        [ Sample.mk 1 [], Sample.mk 2 [] ]).snapshot 2 = Except.ok ys)
      ∧ ((SampleBuffer.empty 4).pushAll
          [ Sample.mk 1 [], Sample.mk 2 [] ]).snapshot (2 * 256) =
          Except.error PipelineError.insufficientData :=
  ⟨(C3_snapshot_insufficient_data 4 2 2 256 [ Sample.mk 1 [], Sample.mk 2 [] ]).2.1
      (by decide),
    (C3_snapshot_insufficient_data 4 2 2 256 [ Sample.mk 1 [], Sample.mk 2 [] ]).2.2
      (by decide)⟩

end NeuroPawnWorkshop

namespace NeuroPawnWorkshop

/-- Modelled from the spec: coefficients of a causal first-order filter
section.  The spec fixes band-pass and notch filtering as per-channel steps
whose numeric design (from candidate band and powerline frequency) is
configuration-time policy, so the model carries the resulting coefficient
sets directly. -/
structure FilterCoeffs where
  b0 : ℚ
  b1 : ℚ
  a1 : ℚ
deriving DecidableEq

/-- Modelled from the spec: the Preprocessor configuration, fixed at pipeline
construction (spec sections 4.2 and 6): a band-pass stage and a notch stage,
applied independently per channel. -/
structure PreprocessConfig where
  bandpass : FilterCoeffs
  notch : FilterCoeffs
deriving DecidableEq

/-- Causal first-order IIR difference equation
`y_t = b0 * x_t + b1 * x_(t-1) - a1 * y_(t-1)`, applied along one channel;
`xp` and `yp` are the previous input and output. -/
def iirFilter (c : FilterCoeffs) : List ℚ → ℚ → ℚ → List ℚ
  | [], _, _ => []
  | x :: xs, xp, yp =>
      let y := c.b0 * x + c.b1 * xp - c.a1 * yp
      y :: iirFilter c xs x y

theorem iirFilter_length (c : FilterCoeffs) :
    ∀ (xs : List ℚ) (xp yp : ℚ), (iirFilter c xs xp yp).length = xs.length := by
  intro xs
  induction xs with
  | nil => intro xp yp; rfl
  | cons x rest ih => intro xp yp; simp [iirFilter, ih]

/-- Arithmetic mean of a channel (0 for an empty channel). -/
def meanQ (xs : List ℚ) : ℚ := xs.sum / xs.length

/-- Modelled from the spec: constant detrending, removing the per-channel
mean to suppress DC offset (spec section 4.2 step (a)). -/
def detrend (xs : List ℚ) : List ℚ := xs.map (fun x => x - meanQ xs)

/-- One channel through the full preprocessing chain: detrend, band-pass,
notch (spec section 4.2 steps (a) to (c)). -/
def processChannel (cfg : PreprocessConfig) (xs : List ℚ) : List ℚ :=
  iirFilter cfg.notch (iirFilter cfg.bandpass (detrend xs) 0 0) 0 0

theorem processChannel_length (cfg : PreprocessConfig) (xs : List ℚ) :
    (processChannel cfg xs).length = xs.length := by
  simp [processChannel, iirFilter_length, detrend]

/-- Whether any value anywhere in the window is non-finite (NaN/Inf). -/
def hasNonFinite (w : Window) : Bool :=
  w.any (fun s => s.values.any (fun v => !v.isFinite))

/-- Channel `j` of a window as a rational time series. -/
def channelVals (w : Window) (j : Nat) : List ℚ :=
  w.map (fun s => (s.values.getD j (FloatVal.finite 0)).toRat)

/-- The channel count of a window (taken from its first sample; the Window
invariant of spec section 3 makes all samples agree). -/
def windowChannelCount : Window → Nat
  | [] => 0
  | s :: _ => s.values.length

/-- All samples of the window have channel count `C`. -/
def uniformChannels (w : Window) (C : Nat) : Prop :=
  ∀ s ∈ w, s.channelCount = C

/-- The cleaned window: every channel processed independently, timestamps
kept, sample count and channel count unchanged. -/
def cleanWindow (cfg : PreprocessConfig) (w : Window) : Window :=
  let cols := (List.range (windowChannelCount w)).map
    (fun j => processChannel cfg (channelVals w j))
  (List.range w.length).map (fun i =>
    { timestamp := (w.getD i (Sample.mk 0 [])).timestamp,
      values := cols.map (fun col => FloatVal.finite (col.getD i 0)) })

/-- Modelled from the spec: `process(window)` rejects a window containing a
non-finite value with `CorruptWindowError`, and otherwise returns the cleaned
window of identical length and channel count (spec section 4.2). -/
def Preprocessor.process (cfg : PreprocessConfig) (w : Window) :
    Except PipelineError Window :=
  if hasNonFinite w then Except.error PipelineError.corruptWindow
  else Except.ok (cleanWindow cfg w)

/-- Modelled from the spec: the FeatureExtractor configuration (spec
sections 4.3 and 6), all fixed at construction: sampling rate, window length,
ordered candidate frequencies, analysis band, a fixed tapering window
function, and the fixed discrete-Fourier basis tables used for spectral
power (their numeric design is configuration-time policy). -/
structure FeatureExtractor where
  samplingRate : Nat
  windowLen : Nat
  candidateFreqs : List ℚ
  bandLo : Nat
  bandHi : Nat
  windowFn : Nat → ℚ
  basisCos : Nat → Nat → ℚ
  basisSin : Nat → Nat → ℚ

/-- A feature vector: one group of values per candidate frequency. -/
abbrev FeatureVector := List ℚ

/-- Apply the fixed tapering window function pointwise. -/
def taper (fe : FeatureExtractor) (xs : List ℚ) : List ℚ :=
  xs.mapIdx (fun n x => fe.windowFn n * x)

/-- Spectral power of one channel at DFT bin `k`. -/
def binPower (fe : FeatureExtractor) (xs : List ℚ) (k : Nat) : ℚ :=
  let c := (xs.mapIdx (fun n x => x * fe.basisCos k n)).sum
  let s := (xs.mapIdx (fun n x => x * fe.basisSin k n)).sum
  c * c + s * s

/-- The DFT bin closest below a frequency:
`bin = floor(f * windowLen / samplingRate)`. -/
def freqBin (fe : FeatureExtractor) (f : ℚ) : Nat :=
  (Int.toNat (Rat.floor (f * (fe.windowLen : ℚ) / (fe.samplingRate : ℚ))))

/-- Power summed over the narrow bin neighbourhood centred at frequency
`f`. -/
def narrowBandPower (fe : FeatureExtractor) (xs : List ℚ) (f : ℚ) : ℚ :=
  let b := freqBin fe f
  binPower fe xs (b - 1) + binPower fe xs b + binPower fe xs (b + 1)

/-- Power of one candidate frequency: fundamental plus second and third
harmonics (spec section 4.3). -/
def candidatePower (fe : FeatureExtractor) (xs : List ℚ) (f : ℚ) : ℚ :=
  narrowBandPower fe xs f + narrowBandPower fe xs (2 * f)
    + narrowBandPower fe xs (3 * f)

/-- Total in-band power over the analysis band, used for normalization. -/
def inBandPower (fe : FeatureExtractor) (xs : List ℚ) : ℚ :=
  ((List.range (fe.bandHi + 1 - fe.bandLo)).map
    (fun i => binPower fe xs (fe.bandLo + i))).sum

/-- Per-channel features: each candidate's harmonic power normalized by the
channel's total in-band power, in candidate order. -/
def channelFeatures (fe : FeatureExtractor) (xs : List ℚ) : List ℚ :=
  let tx := taper fe xs
  let total := inBandPower fe tx
  fe.candidateFreqs.map (fun f => candidatePower fe tx f / total)

/-- Modelled from the spec: `extract(window)` computes per-channel normalized
candidate powers and aggregates them across channels by averaging, in a
fixed candidate order (spec section 4.3).  It is a pure function of the
extractor configuration and the window. -/
def FeatureExtractor.extract (fe : FeatureExtractor) (w : Window) : FeatureVector :=
  let numCh := windowChannelCount w
  let perChannel := (List.range numCh).map
    (fun j => channelFeatures fe (channelVals w j))
  fe.candidateFreqs.mapIdx
    (fun i _ => ((perChannel.map (fun feats => feats.getD i 0)).sum) / (numCh : ℚ))

end NeuroPawnWorkshop

namespace NeuroPawnWorkshop

/-- C6: `process` rejects every window containing a non-finite value with
`CorruptWindowError`, and on every all-finite window returns a cleaned
window of identical length whose samples all keep the window's common
channel count. -/
theorem C6_process_shape_and_rejection (cfg : PreprocessConfig) (w : Window) :
    (hasNonFinite w = true →
        Preprocessor.process cfg w = Except.error PipelineError.corruptWindow)
      ∧ (hasNonFinite w = false →
          ∃ w', Preprocessor.process cfg w = Except.ok w'
            ∧ w'.length = w.length
            ∧ ∀ C, uniformChannels w C → uniformChannels w' C) := by
  constructor
  · intro h
    simp [Preprocessor.process, h]
  · intro h
    refine ⟨cleanWindow cfg w, by simp [Preprocessor.process, h], ?_, ?_⟩
    · simp [cleanWindow]
    · intro C hC s hs
      simp only [cleanWindow, List.mem_map, List.mem_range] at hs
      obtain ⟨i, hi, rfl⟩ := hs
      match w, hC, hi with
      | s0 :: rest, hC, hi =>
          simp only [Sample.channelCount, List.length_map, List.length_range,
            windowChannelCount]
          exact hC s0 (List.mem_cons_self s0 rest)

/-- C6 witness: a one-sample window containing NaN is rejected with
`CorruptWindowError`; a finite two-sample one-channel window is cleaned into
a window of the same length and channel count. -/
theorem C6_witness :
    (Preprocessor.process
        { bandpass := { b0 := 1, b1 := 0, a1 := 0 },
          notch := { b0 := 1, b1 := 0, a1 := 0 } }
        [ Sample.mk 0 [FloatVal.nan] ] = Except.error PipelineError.corruptWindow)
      ∧ (∃ w', Preprocessor.process
            { bandpass := { b0 := 1, b1 := 0, a1 := 0 },
              notch := { b0 := 1, b1 := 0, a1 := 0 } }
            [ Sample.mk 0 [FloatVal.finite 1], Sample.mk 1 [FloatVal.finite 3] ] =
            Except.ok w'
          ∧ w'.length = [ Sample.mk 0 [FloatVal.finite 1],
              Sample.mk 1 [FloatVal.finite 3] ].length
          ∧ ∀ C, uniformChannels
              [ Sample.mk 0 [FloatVal.finite 1], Sample.mk 1 [FloatVal.finite 3] ] C →
              uniformChannels w' C) :=
  ⟨(C6_process_shape_and_rejection
      { bandpass := { b0 := 1, b1 := 0, a1 := 0 },
        notch := { b0 := 1, b1 := 0, a1 := 0 } }
      [ Sample.mk 0 [FloatVal.nan] ]).1 (by decide),
    (C6_process_shape_and_rejection
      { bandpass := { b0 := 1, b1 := 0, a1 := 0 },
        notch := { b0 := 1, b1 := 0, a1 := 0 } }
      [ Sample.mk 0 [FloatVal.finite 1], Sample.mk 1 [FloatVal.finite 3] ]).2 (by decide)⟩

/-- C4: `extract` is deterministic: identical windows under the same fixed
extractor configuration yield identical feature vectors; the result depends
on nothing but the configuration and the window (the model has no other
state). -/
theorem C4_extract_deterministic (fe : FeatureExtractor) (w1 w2 : Window)
    (h : w1 = w2) : fe.extract w1 = fe.extract w2 := by
  rw [h]

/-- A small concrete extractor configuration used to witness C4. -/
def demoExtractor : FeatureExtractor :=
  { samplingRate := 4, windowLen := 4, candidateFreqs := [1], bandLo := 0,
    bandHi := 2, windowFn := fun _ => 1, basisCos := fun _ _ => 1,
    basisSin := fun _ _ => 0 }

/-- A small concrete window used to witness C4. -/
def demoWindow : Window :=
  [ Sample.mk 0 [FloatVal.finite 1], Sample.mk 1 [FloatVal.finite (-1)] ]

/-- C4 witness: the determinism theorem applied to a concrete extractor and
window. -/
theorem C4_witness :
    demoExtractor.extract demoWindow = demoExtractor.extract demoWindow :=
  C4_extract_deterministic demoExtractor demoWindow demoWindow rfl

end NeuroPawnWorkshop

namespace NeuroPawnWorkshop

/-- Modelled from the spec: a Label is one of the candidate stimulus
frequencies or NONE (spec section 3). -/
inductive Label where
  | freq (f : ℚ)
  | NONE
deriving DecidableEq

/-- Modelled from the spec: a trained Model: model-kind tag, the
candidate-frequency list defining the Label enumeration, and trained
per-candidate weight vectors; immutable after training (spec sections 3
and 6). -/
structure Model where
  kindTag : String
  candidateFreqs : List ℚ
  weights : List (List ℚ)
deriving DecidableEq

/-- Dot product of two rational vectors (shorter length wins). -/
def dotQ (u v : List ℚ) : ℚ := (List.zipWith (fun a b => a * b) u v).sum

/-- Per-candidate class scores of a feature vector under a model. -/
def Model.scores (m : Model) (v : FeatureVector) : List ℚ :=
  m.weights.map (fun w => dotQ w v)

/-- Index and value of the maximum of a list of scores (first maximum on
ties), `none` on the empty list. -/
def bestScore : List ℚ → Option (Nat × ℚ)
  | [] => none
  | q :: qs =>
      match bestScore qs with
      | none => some (0, q)
      | some (j, s) => if q < s then some (j + 1, s) else some (0, q)

theorem bestScore_mem :
    ∀ {l : List ℚ} {i : Nat} {s : ℚ}, bestScore l = some (i, s) → s ∈ l := by
  intro l
  induction l with
  | nil => intro i s h; simp [bestScore] at h
  | cons q qs ih =>
      intro i s h
      rw [bestScore] at h
      cases hq : bestScore qs with
      | none =>
          rw [hq] at h
          have h2 : some (0, q) = some (i, s) := h
          simp only [Option.some.injEq, Prod.mk.injEq] at h2
          rw [← h2.2]
          exact List.mem_cons_self q qs
      | some p =>
          obtain ⟨j, s2⟩ := p
          rw [hq] at h
          have h2 : (if q < s2 then some (j + 1, s2) else some (0, q)) =
              some (i, s) := h
          by_cases hc : q < s2
          · rw [if_pos hc] at h2
            simp only [Option.some.injEq, Prod.mk.injEq] at h2
            rw [← h2.2]
            exact List.mem_cons_of_mem q (ih hq)
          · rw [if_neg hc] at h2
            simp only [Option.some.injEq, Prod.mk.injEq] at h2
            rw [← h2.2]
            exact List.mem_cons_self q qs

/-- Modelled from the spec: `predict(feature_vector)` returns the
highest-scoring Label together with its score as the confidence, abstaining
with NONE unless the maximum class score exceeds the configured abstention
threshold: a score below the threshold returns NONE, and at the boundary no
class exceeds the threshold without genuine separation, so NONE as well
(spec sections 4.4 and 8). -/
def Model.predict (m : Model) (threshold : ℚ) (v : FeatureVector) : Label × ℚ :=
  match bestScore (m.scores v) with
  | none => (Label.NONE, 0)
  | some (i, s) =>
      if threshold < s then (Label.freq (m.candidateFreqs.getD i 0), s)
      else (Label.NONE, s)

/-- Modelled from the spec: the versioned model file format of spec
section 6: format version, model-kind tag, candidate-frequency list, trained
parameters. -/
structure SavedModel where
  formatVersion : Nat
  kindTag : String
  candidateFreqs : List ℚ
  weights : List (List ℚ)
deriving DecidableEq

/-- The current model file format version. -/
def modelFormatVersion : Nat := 1

/-- Modelled from the spec: serialize a model to the versioned file
format. -/
def saveModel (m : Model) : SavedModel :=
  { formatVersion := modelFormatVersion, kindTag := m.kindTag,
    candidateFreqs := m.candidateFreqs, weights := m.weights }

/-- Modelled from the spec: loading checks the format version, and fails
with `ModelConfigMismatchError` when the file's candidate-frequency list
disagrees with the running configuration (spec section 6). -/
def loadModel (expectedFreqs : List ℚ) (f : SavedModel) : Except PipelineError Model :=
  if f.formatVersion ≠ modelFormatVersion then
    Except.error PipelineError.unsupportedModelFormat
  else if f.candidateFreqs ≠ expectedFreqs then
    Except.error PipelineError.modelConfigMismatch
  else
    Except.ok
      { kindTag := f.kindTag, candidateFreqs := f.candidateFreqs,
        weights := f.weights }

end NeuroPawnWorkshop

namespace NeuroPawnWorkshop

/-- C5: serialization round-trips: in a matching configuration,
`load(save(m))` succeeds with a model equal to `m`, hence predicting
identically to `m` on every feature vector and threshold. -/
theorem C5_save_load_roundtrip (m : Model) (t : ℚ) (v : FeatureVector) :
    loadModel m.candidateFreqs (saveModel m) = Except.ok m
      ∧ (loadModel m.candidateFreqs (saveModel m)).map (fun m2 => m2.predict t v)
        = Except.ok (m.predict t v) := by
  obtain ⟨k, cf, wts⟩ := m
  have h : loadModel cf (saveModel (Model.mk k cf wts)) =
      Except.ok (Model.mk k cf wts) := by
    simp [loadModel, saveModel]
  exact ⟨h, by rw [h]; rfl⟩

/-- C7: `predict` abstains: whenever every class score is below the
threshold it returns NONE, and whenever the scores are all equal to a
uniform value that the threshold meets or exceeds it returns NONE. -/
theorem C7_below_threshold_abstains (m : Model) (t : ℚ) (v : FeatureVector) :
    ((∀ s ∈ m.scores v, s < t) → (m.predict t v).1 = Label.NONE)
      ∧ ∀ u : ℚ, (∀ s ∈ m.scores v, s = u) → u ≤ t →
          (m.predict t v).1 = Label.NONE := by
  constructor
  · intro hall
    unfold Model.predict
    cases hb : bestScore (m.scores v) with
    | none => rfl
    | some p =>
        obtain ⟨i, s⟩ := p
        have hmem := bestScore_mem hb
        have hlt := hall s hmem
        show (if t < s then (Label.freq (m.candidateFreqs.getD i 0), s)
            else (Label.NONE, s)).1 = Label.NONE
        rw [if_neg (not_lt.mpr (le_of_lt hlt))]
  · intro u hall hle
    unfold Model.predict
    cases hb : bestScore (m.scores v) with
    | none => rfl
    | some p =>
        obtain ⟨i, s⟩ := p
        have hmem := bestScore_mem hb
        have hs : s = u := hall s hmem
        show (if t < s then (Label.freq (m.candidateFreqs.getD i 0), s)
            else (Label.NONE, s)).1 = Label.NONE
        rw [if_neg (not_lt.mpr (hs ▸ hle))]

/-- C7 witness: a two-candidate model whose scores on the all-equal feature
vector are uniformly 1/2 abstains both when the threshold is 1 (all scores
strictly below) and when the threshold equals the uniform score 1/2. -/
theorem C7_witness :
    ((Model.mk ("lda") ([8, 10]) ([[1], [1]])).predict 1 [1/2]).1 = Label.NONE
      ∧ ((Model.mk ("lda") ([8, 10]) ([[1], [1]])).predict (1/2) [1/2]).1 =
        Label.NONE :=
  ⟨(C7_below_threshold_abstains (Model.mk ("lda") ([8, 10]) ([[1], [1]])) 1
        [1/2]).1 (by norm_num [Model.scores, dotQ]),
    (C7_below_threshold_abstains (Model.mk ("lda") ([8, 10]) ([[1], [1]])) (1/2)
        [1/2]).2 (1/2) (by norm_num [Model.scores, dotQ]) (le_refl (1/2 : ℚ))⟩

end NeuroPawnWorkshop

namespace NeuroPawnWorkshop

/-- Modelled from the spec: the StreamingPipeline control phases (spec
section 4.5): WAITING_FOR_DATA, READY, CLASSIFYING (a window in flight), and
the terminal STOPPED. -/
inductive Phase where
  | waitingForData
  | ready
  | classifying
  | stopped
deriving DecidableEq

/-- Modelled from the spec: pipeline control state: the current phase,
whether `stop()` has been requested, and how many windows have been pulled
so far. -/
structure PipeState where
  phase : Phase
  stopRequested : Bool
  windowsPulled : Nat
deriving DecidableEq

/-- Modelled from the spec: the events driving the pipeline loop:
`samplesArrive` (the buffer can now satisfy a window request), `pullWindow`
(snapshot-and-advance), `finishWindow` (the in-flight window's processing
completes and its prediction is emitted), and `stopRequest` (`stop()`,
callable from any execution context, hence an event that may arrive at any
point of a trace). -/
inductive PipeEvent where
  | samplesArrive
  | pullWindow
  | finishWindow
  | stopRequest
deriving DecidableEq

/-- Modelled from the spec: one pipeline transition; `none` means the event
is not enabled in the state.  `stop()` is enabled in every non-terminal
state: in WAITING_FOR_DATA and READY it halts immediately, in CLASSIFYING it
only records the request and the in-flight window completes, after which the
pipeline transitions to STOPPED.  Pulling a window is enabled only in READY
when no stop has been requested.  STOPPED enables nothing (spec
sections 4.5 and 5). -/
def pipeStep (s : PipeState) (e : PipeEvent) : Option PipeState :=
  match s.phase, e with
  | Phase.stopped, _ => none
  | Phase.classifying, PipeEvent.stopRequest =>
      some { s with stopRequested := true }
  | Phase.classifying, PipeEvent.finishWindow =>
      some { s with phase := if s.stopRequested then Phase.stopped else Phase.ready }
  | Phase.ready, PipeEvent.stopRequest =>
      some { s with stopRequested := true, phase := Phase.stopped }
  | Phase.ready, PipeEvent.pullWindow =>
      if s.stopRequested then none
      else
        some { s with phase := Phase.classifying, windowsPulled := s.windowsPulled + 1 }
  | Phase.waitingForData, PipeEvent.stopRequest =>
      some { s with stopRequested := true, phase := Phase.stopped }
  | Phase.waitingForData, PipeEvent.samplesArrive =>
      some { s with phase := Phase.ready }
  | _, _ => none

/-- Run a sequence of events from a state, skipping events that are not
enabled. -/
def runPipe (s : PipeState) : List PipeEvent → PipeState
  | [] => s
  | e :: es =>
      match pipeStep s e with
      | none => runPipe s es
      | some s2 => runPipe s2 es

theorem pipeStep_after_stop (s s2 : PipeState) (e : PipeEvent)
    (hf : s.stopRequested = true) (h : pipeStep s e = some s2) :
    s2.stopRequested = true ∧ s2.windowsPulled = s.windowsPulled := by
  obtain ⟨ph, fl, n⟩ := s
  have hf2 : fl = true := hf
  subst hf2
  cases ph <;> cases e <;>
    first
      | exact Option.noConfusion h
      | (have h2 := Option.some.inj h; subst h2; exact ⟨rfl, rfl⟩)

theorem runPipe_after_stop (es : List PipeEvent) :
    ∀ s : PipeState, s.stopRequested = true →
      (runPipe s es).windowsPulled = s.windowsPulled
        ∧ (runPipe s es).stopRequested = true := by
  induction es with
  | nil => intro s h; exact ⟨rfl, h⟩
  | cons e rest ih =>
      intro s h
      unfold runPipe
      cases hs : pipeStep s e with
      | none => exact ih s h
      | some s2 =>
          have h2 := pipeStep_after_stop s s2 e h hs
          have h3 := ih s2 h2.1
          exact ⟨by rw [h3.1, h2.2], h3.2⟩

end NeuroPawnWorkshop

namespace NeuroPawnWorkshop

/-- C8: once `stop()` has been requested, no continuation of the run pulls
another window and the request persists; `stop()` is enabled in every
non-terminal state and records the request; an in-flight window still
completes after `stop()` and its completion transitions the pipeline to the
terminal STOPPED phase; and STOPPED enables no further event at all. -/
theorem C8_stop_is_final (s : PipeState) (e : PipeEvent) (es : List PipeEvent) :
    (s.stopRequested = true →
        (runPipe s es).windowsPulled = s.windowsPulled
          ∧ (runPipe s es).stopRequested = true)
      ∧ (s.phase ≠ Phase.stopped →
          ∃ s2, pipeStep s PipeEvent.stopRequest = some s2
            ∧ s2.stopRequested = true)
      ∧ (s.phase = Phase.classifying → s.stopRequested = true →
          pipeStep s PipeEvent.finishWindow = some { s with phase := Phase.stopped })
      ∧ (s.phase = Phase.stopped → pipeStep s e = none) := by
  refine ⟨runPipe_after_stop es s, ?_, ?_, ?_⟩
  · intro hne
    obtain ⟨ph, fl, n⟩ := s
    cases ph with
    | waitingForData => exact ⟨PipeState.mk Phase.stopped true n, rfl, rfl⟩
    | ready => exact ⟨PipeState.mk Phase.stopped true n, rfl, rfl⟩
    | classifying => exact ⟨PipeState.mk Phase.classifying true n, rfl, rfl⟩
    | stopped => exact absurd rfl hne
  · intro hcl hf
    obtain ⟨ph, fl, n⟩ := s
    have hcl2 : ph = Phase.classifying := hcl
    have hf2 : fl = true := hf
    subst hcl2
    subst hf2
    rfl
  · intro hst
    obtain ⟨ph, fl, n⟩ := s
    have hst2 : ph = Phase.stopped := hst
    subst hst2
    cases e <;> rfl

/-- C8 witness: from a classifying state with stop requested and 5 windows
pulled, running further events never pulls again; `stop()` succeeds from
READY; finishing the in-flight window lands in STOPPED; STOPPED enables
nothing. -/
theorem C8_witness :
    ((runPipe (PipeState.mk Phase.classifying true 5)
          [ PipeEvent.pullWindow, PipeEvent.finishWindow,
            PipeEvent.samplesArrive, PipeEvent.pullWindow ]).windowsPulled = 5
        ∧ (runPipe (PipeState.mk Phase.classifying true 5)
            [ PipeEvent.pullWindow, PipeEvent.finishWindow,
              PipeEvent.samplesArrive, PipeEvent.pullWindow ]).stopRequested = true)
      ∧ (∃ s2, pipeStep (PipeState.mk Phase.ready false 0) PipeEvent.stopRequest =
            some s2 ∧ s2.stopRequested = true)
      ∧ pipeStep (PipeState.mk Phase.classifying true 5) PipeEvent.finishWindow =
          some (PipeState.mk Phase.stopped true 5)
      ∧ pipeStep (PipeState.mk Phase.stopped true 5) PipeEvent.pullWindow = none :=
  ⟨(C8_stop_is_final (PipeState.mk Phase.classifying true 5) PipeEvent.pullWindow
        [ PipeEvent.pullWindow, PipeEvent.finishWindow,
          PipeEvent.samplesArrive, PipeEvent.pullWindow ]).1 rfl,
    (C8_stop_is_final (PipeState.mk Phase.ready false 0) PipeEvent.pullWindow
        []).2.1 (by decide),
    (C8_stop_is_final (PipeState.mk Phase.classifying true 5) PipeEvent.pullWindow
        []).2.2.1 rfl rfl,
    (C8_stop_is_final (PipeState.mk Phase.stopped true 5) PipeEvent.pullWindow
        []).2.2.2 rfl⟩

end NeuroPawnWorkshop
